import Mathlib

/-!
Verification of the Automated-BI-Pipeline core against its specification.

The Python sources are shallowly embedded:
* `src/data_cleaner.py` — `load_data`, `handle_missing_values`, `correct_datatypes`;
* `src/db_connector.py` — `upsert_dataframe`, `_create_engine_with_retry`,
  `execute_query`.

A pandas DataFrame is modelled as a `Dataset`: a list of named columns, each
column holding equally treated cells that are `Option` values (`none` is the
pandas null / NaN / NaT).  Machine floats carrying the observed values are
modelled as exact rationals; pandas nullable integer columns as integers
with a width tag.  Exceptions are modelled with `Except`, a caught-and-logged
exception with `Option`.
-/

namespace Pipeline

/-- Width of a pandas nullable integer dtype: Int8, Int16, Int32 or Int64
(these are the dtypes named in the astype calls of correct_datatypes). -/
inductive IntWidth where
  | w8
  | w16
  | w32
  | w64
  deriving DecidableEq, Repr

/-- The cells of one column, tagged by the column dtype kind:
float64/float32 storage, pandas nullable integer storage, object (text)
storage, or datetime64 storage.  A `none` cell is a pandas missing value. -/
inductive ColumnData where
  | floatCol (cells : List (Option ℚ))
  | intCol (width : IntWidth) (cells : List (Option ℤ))
  | strCol (cells : List (Option String))
  | dtCol (cells : List (Option ℚ))
  deriving DecidableEq, Repr

/-- A named column of a DataFrame. -/
structure Column where
  name : String
  data : ColumnData
  deriving DecidableEq, Repr

/-- A pandas DataFrame: ordered sequence of named columns. -/
abbrev Dataset := List Column

/-- A Python exception that the data-cleaning code may catch; only the
message is modelled. -/
structure PyError where
  msg : String
  deriving DecidableEq, Repr

/-- Number of cells of a column. -/
def ColumnData.size : ColumnData → ℕ
  | .floatCol cs => cs.length
  | .intCol _ cs => cs.length
  | .strCol cs => cs.length
  | .dtCol cs => cs.length

/-- Null count of a cell list (pandas isnull().sum() for one column). -/
def missingCount {α : Type} (cells : List (Option α)) : ℕ :=
  cells.countP (fun c => c.isNone)

/-- Null count of a column. -/
def ColumnData.missing : ColumnData → ℕ
  | .floatCol cs => missingCount cs
  | .intCol _ cs => missingCount cs
  | .strCol cs => missingCount cs
  | .dtCol cs => missingCount cs

/-- The non-null values of a cell list, in column order (pandas dropna). -/
def somes {α : Type} (cells : List (Option α)) : List α :=
  cells.filterMap id

/-- True when the column is selected by select_dtypes(include=[number]). -/
def ColumnData.isNumeric : ColumnData → Bool
  | .floatCol _ => true
  | .intCol _ _ => true
  | .strCol _ => false
  | .dtCol _ => false

/-- True when the column is selected by select_dtypes(include=[object]). -/
def ColumnData.isText : ColumnData → Bool
  | .strCol _ => true
  | _ => false

/-- True when the column has at least one non-null value. -/
def ColumnData.hasNonNull : ColumnData → Bool
  | .floatCol cs => (somes cs).length != 0
  | .intCol _ cs => (somes cs).length != 0
  | .strCol cs => (somes cs).length != 0
  | .dtCol cs => (somes cs).length != 0

/-- Insert a rational into an already sorted list, keeping it sorted. -/
def insertSorted (q : ℚ) : List ℚ → List ℚ
  | [] => [q]
  | x :: xs => if q ≤ x then q :: x :: xs else x :: insertSorted q xs

/-- Ascending sort (used to model the order statistics behind median). -/
def sortRat (l : List ℚ) : List ℚ :=
  l.foldr insertSorted []

/-- pandas Series.median over the non-null values: the middle element of
the sorted values for odd length, the mean of the two middle elements for
even length, and NaN (modelled as `none`) for an empty list. -/
def medianRat (l : List ℚ) : Option ℚ :=
  if (sortRat l).length = 0 then none
  else if (sortRat l).length % 2 = 1 then
    some ((sortRat l).getD ((sortRat l).length / 2) 0)
  else
    some (((sortRat l).getD ((sortRat l).length / 2 - 1) 0 +
      (sortRat l).getD ((sortRat l).length / 2) 0) / 2)

/-- Numeric branch of handle_missing_values on a float column: when the
column has nulls, fillna with the median of the non-null values; a median
of an all-null column is NaN and fillna(NaN) leaves the cells unchanged. -/
def fillNumericRat (cells : List (Option ℚ)) : List (Option ℚ) :=
  if 0 < missingCount cells then
    match medianRat (somes cells) with
    | some m => cells.map (fun c => some (c.getD m))
    | none => cells
  else cells

/-- Numeric branch of handle_missing_values on a pandas nullable integer
column: fillna with the median; pandas raises a TypeError when the fill
value is not representable in the integer dtype (a non-integral median). -/
def fillNumericInt (cells : List (Option ℤ)) : Except PyError (List (Option ℤ)) :=
  if 0 < missingCount cells then
    match medianRat ((somes cells).map (fun (z : ℤ) => (z : ℚ))) with
    | some m =>
        if m.den = 1 then .ok (cells.map (fun c => some (c.getD m.num)))
        else .error ⟨"TypeError: non-integer fill value for integer dtype"⟩
    | none => .ok cells
  else .ok cells

/-- Lexicographic comparison of character lists by code point, the order
Python and numpy use to sort strings. -/
def charListLe : List Char → List Char → Bool
  | [], _ => true
  | _ :: _, [] => false
  | a :: as, b :: bs =>
      if a.toNat < b.toNat then true
      else if b.toNat < a.toNat then false
      else charListLe as bs

/-- String order by code points. -/
def strLe (a b : String) : Bool :=
  charListLe a.toList b.toList

/-- Least string of a list under the code-point order (the head of the
numpy-sorted array). -/
def minString : List String → Option String
  | [] => none
  | x :: xs => some (xs.foldl (fun m v => if strLe v m then v else m) x)

/-- Head of pandas Series.mode() over the non-null values: mode() returns
the values of maximal multiplicity in ascending sorted order, so its first
entry is the least value among those of maximal multiplicity; `none` when
there is no non-null value (mode().empty). -/
def modeHead (vals : List String) : Option String :=
  minString (vals.filter (fun s => decide (∀ v ∈ vals, vals.count v ≤ vals.count s)))

/-- Categorical branch of handle_missing_values: when the column has nulls,
fillna with mode()[0] if the mode is non-empty, otherwise fillna with the
sentinel "Unknown". -/
def fillCategorical (cells : List (Option String)) : List (Option String) :=
  if 0 < missingCount cells then
    match modeHead (somes cells) with
    | some m => cells.map (fun c => some (c.getD m))
    | none => cells.map (fun c => some (c.getD "Unknown"))
  else cells

/-- One column of the two fill loops of handle_missing_values: numeric
columns get the median fill, object columns the mode/Unknown fill, other
dtypes are not selected by either loop. -/
def imputeColumn (c : Column) : Except PyError Column :=
  match c.data with
  | .floatCol cs => .ok ⟨c.name, .floatCol (fillNumericRat cs)⟩
  | .intCol w cs => (fillNumericInt cs).map (fun cs2 => ⟨c.name, .intCol w cs2⟩)
  | .strCol cs => .ok ⟨c.name, .strCol (fillCategorical cs)⟩
  | .dtCol cs => .ok ⟨c.name, .dtCol cs⟩

/-- The try-block body of handle_missing_values: both fill loops, column by
column; a raised exception aborts the remaining columns and propagates to
the except clause. -/
def imputeDataset : Dataset → Except PyError Dataset
  | [] => .ok []
  | c :: cs => do
      let c2 ← imputeColumn c
      let cs2 ← imputeDataset cs
      return c2 :: cs2

/-- The except clause of the normalization methods: any exception raised by
the body is caught, logged, and turned into the absent result None. -/
def tryCatchToNone {A : Type} (body : Except PyError A) : Option A :=
  match body with
  | .ok a => some a
  | .error _ => none

/-- DataCleaner.handle_missing_values: None when no data is loaded,
otherwise the imputed DataFrame, with any exception caught to None. -/
def handle_missing_values (data : Option Dataset) : Option Dataset :=
  match data with
  | none => none
  | some d => tryCatchToNone (imputeDataset d)

/-- Outcome of the pandas read_csv call in load_data: success, or one of
the exception kinds distinguished by its except clauses. -/
inductive ReadCsvOutcome where
  | ok (df : Dataset)
  | fileNotFound
  | emptyDataError
  | otherError (msg : String)
  deriving DecidableEq, Repr

/-- The mutable attributes of a DataCleaner instance. -/
structure DataCleanerState where
  filepath : String
  data : Option Dataset
  deriving DecidableEq, Repr

/-- DataCleaner.load_data: self.data is assigned only when read_csv
succeeds; every failure kind is caught and reported as None, leaving
self.data untouched because the assignment never executed. -/
def load_data (readCsv : String → ReadCsvOutcome) (st : DataCleanerState) :
    DataCleanerState × Option Dataset :=
  match readCsv st.filepath with
  | .ok df => ({ st with data := some df }, some df)
  | .fileNotFound => (st, none)
  | .emptyDataError => (st, none)
  | .otherError _ => (st, none)

/-- True when the first list is a prefix of the second. -/
def charListStartsWith : List Char → List Char → Bool
  | [], _ => true
  | _ :: _, [] => false
  | p :: ps, c :: cs => p == c && charListStartsWith ps cs

/-- True when the pattern occurs as a contiguous sublist. -/
def charListContains (pat : List Char) : List Char → Bool
  | [] => pat.isEmpty
  | c :: cs => charListStartsWith pat (c :: cs) || charListContains pat cs

/-- True when the lowered column name contains the substring date or the
substring time (the selection test of the datetime loop; column names are
ASCII, so lowering characterwise models str.lower). -/
def isDateTimeName (name : String) : Bool :=
  charListContains "date".toList (name.toList.map Char.toLower) ||
    charListContains "time".toList (name.toList.map Char.toLower)

/-- pandas to_datetime(col, errors=coerce): every cell is parsed
independently, a null stays null, an unparseable value becomes null (NaT),
and no exception escapes.  The elementary parsers for text cells and for
numeric cells are abstract parameters of the model. -/
def coerceCells (parseS : String → Option ℚ) (parseN : ℚ → Option ℚ) :
    ColumnData → List (Option ℚ)
  | .strCol cs => cs.map (fun c => c.bind parseS)
  | .floatCol cs => cs.map (fun c => c.bind parseN)
  | .intCol _ cs => cs.map (fun c => c.bind (fun z => parseN (z : ℚ)))
  | .dtCol cs => cs

/-- The coercive datetime conversion of one column. -/
def pdToDatetimeCoerce (parseS : String → Option ℚ) (parseN : ℚ → Option ℚ)
    (c : Column) : Column :=
  ⟨c.name, .dtCol (coerceCells parseS parseN c.data)⟩

/-- One iteration of the datetime loop of correct_datatypes: a column whose
name contains date or time is converted, with the per-column try/except
catching a conversion failure and leaving that column unchanged. -/
def dateStep (conv : Column → Except PyError Column) (c : Column) : Column :=
  if isDateTimeName c.name then
    match conv c with
    | .ok c2 => c2
    | .error _ => c
  else c

/-- The datetime loop of correct_datatypes over all columns. -/
def convertDateColumns (conv : Column → Except PyError Column)
    (cols : List Column) : List Column :=
  cols.map (dateStep conv)

/-- Least value of the signed integer range behind a pandas nullable
integer dtype (Int8 .. Int64 are signed two-complement widths). -/
def IntWidth.lo : IntWidth → ℤ
  | .w8 => -128
  | .w16 => -32768
  | .w32 => -2147483648
  | .w64 => -(2 ^ 63)

/-- Greatest value of the signed integer range of the dtype. -/
def IntWidth.hi : IntWidth → ℤ
  | .w8 => 127
  | .w16 => 32767
  | .w32 => 2147483647
  | .w64 => 2 ^ 63 - 1

/-- The integrality test of the narrowing loop: dropna().apply(x == int(x)).all(),
vacuously true for an all-null column. -/
def allIntegral (cells : List (Option ℚ)) : Bool :=
  (somes cells).all (fun q => q.den == 1)

/-- The width chosen by the min/max branch chain of correct_datatypes.  An
all-null column has NaN min and max, every comparison with NaN is false, and
the chain falls through to Int64. -/
def chooseWidth : Option ℚ → Option ℚ → IntWidth
  | some mn, some mx =>
      if 0 ≤ mn then
        if mx < 256 then .w8
        else if mx < 65536 then .w16
        else if mx < 4294967296 then .w32
        else .w64
      else
        if -128 ≤ mn ∧ mx < 128 then .w8
        else if -32768 ≤ mn ∧ mx < 32768 then .w16
        else if -2147483648 ≤ mn ∧ mx < 2147483648 then .w32
        else .w64
  | _, _ => .w64

/-- Series.astype to a pandas nullable integer dtype.  pandas safe-casts:
each non-null float is cast to the signed machine integer and compared with
the original; a value that is fractional or outside the signed range of the
dtype does not survive the round trip and a TypeError is raised. -/
def astypeNullableInt (w : IntWidth) (cells : List (Option ℚ)) :
    Except PyError (List (Option ℤ)) :=
  if (somes cells).all (fun q => q.den == 1 && w.lo ≤ q.num && q.num ≤ w.hi) then
    .ok (cells.map (fun c => c.map (fun q => q.num)))
  else
    .error ⟨"TypeError: cannot safely cast non-equivalent float64"⟩

/-- One iteration of the numeric narrowing loop: a float column whose
non-null values are all integral is astype-cast to the width selected from
its min/max; a column with a fractional value stays float.  There is no
per-column try/except here: an astype failure propagates. -/
def narrowColumn (c : Column) : Except PyError Column :=
  match c.data with
  | .floatCol cs =>
      if allIntegral cs then
        let w := chooseWidth (somes cs).min? (somes cs).max?
        (astypeNullableInt w cs).map (fun zs => ⟨c.name, .intCol w zs⟩)
      else .ok c
  | _ => .ok c

/-- The numeric narrowing loop of correct_datatypes over all columns
(select_dtypes([float64, float32]) picks exactly the float columns); the
first raised exception aborts the loop and propagates to the except
clause. -/
def narrowNumericColumns : Dataset → Except PyError Dataset
  | [] => .ok []
  | c :: cs => do
      let c2 ← narrowColumn c
      let cs2 ← narrowNumericColumns cs
      return c2 :: cs2

/-- DataCleaner.correct_datatypes: None when no data is loaded; otherwise
the datetime loop runs first (failures isolated per column), then the
numeric narrowing loop inside the same try, whose exceptions are caught by
the outer except clause into None. -/
def correct_datatypes (parseS : String → Option ℚ) (parseN : ℚ → Option ℚ)
    (data : Option Dataset) : Option Dataset :=
  match data with
  | none => none
  | some d =>
      let d1 := convertDateColumns
        (fun c => .ok (pdToDatetimeCoerce parseS parseN c)) d
      tryCatchToNone (narrowNumericColumns d1)

/-- A SQL cell value carried by an upsert record. -/
inductive Value where
  | num (q : ℚ)
  | int (z : ℤ)
  | str (s : String)
  | time (t : ℚ)
  | null
  deriving DecidableEq, Repr

/-- One row of df.to_dict(records): column name to value. -/
abbrev Record := List (String × Value)

/-- A column of the destination table as reflected from the live schema;
the identity flag records whether the database generates its values. -/
structure TableColumn where
  name : String
  isIdentity : Bool
  deriving DecidableEq, Repr

/-- The destination table reflected by Table(..., autoload_with=engine). -/
structure DBTable where
  name : String
  columns : List TableColumn
  deriving DecidableEq, Repr

/-- The update dictionary built for one statement: the names of all table
columns whose name is not among the conflict columns and is not the literal
name id. -/
def updateColumns (t : DBTable) (conflictColumns : List String) : List String :=
  (t.columns.filter
    (fun c => !(conflictColumns.contains c.name) && c.name != "id")).map
    (fun c => c.name)

/-- An INSERT .. ON CONFLICT DO UPDATE statement for one record: the row
values, the conflict target, and the SET clause assigning to each updated
column its excluded value, i.e. the value the insert would have written. -/
structure UpsertStmt where
  table : String
  insertValues : Record
  conflictTarget : List String
  updateSet : List (String × Option Value)
  deriving DecidableEq, Repr

/-- insert(table).values(record).on_conflict_do_update(...) for one row:
excluded[col] is the value proposed for insertion for that column. -/
def buildUpsertStmt (t : DBTable) (record : Record)
    (conflictColumns : List String) : UpsertStmt :=
  { table := t.name
    insertValues := record
    conflictTarget := conflictColumns
    updateSet := (updateColumns t conflictColumns).map
      (fun n => (n, record.lookup n)) }

/-- An observable action issued on the open connection. -/
inductive DBEvent where
  | execute (stmt : UpsertStmt)
  | commit
  deriving DecidableEq, Repr

/-- The row loop of upsert_dataframe, with the running 1-based index i of
enumerate(records, 1): execute the statement of each record, and commit
after every record whose index is a multiple of 1000. -/
def upsertLoop (t : DBTable) (conflictColumns : List String) :
    List Record → ℕ → List DBEvent
  | [], _ => []
  | r :: rs, i =>
      DBEvent.execute (buildUpsertStmt t r conflictColumns) ::
        ((if i % 1000 == 0 then [DBEvent.commit] else []) ++
          upsertLoop t conflictColumns rs (i + 1))

/-- The full event sequence of upsert_dataframe: the row loop started at
index 1, followed by the final commit. -/
def upsertTrace (t : DBTable) (records : List Record)
    (conflictColumns : List String) : List DBEvent :=
  upsertLoop t conflictColumns records 1 ++ [DBEvent.commit]

/-- Number of commits in an event sequence. -/
def commitCount (events : List DBEvent) : ℕ :=
  events.countP (fun e => e == DBEvent.commit)

/-- Number of executed statements in an event sequence. -/
def executeCount (events : List DBEvent) : ℕ :=
  events.countP (fun e => e != DBEvent.commit)

/-- Result of a completed upsert_dataframe call: the events issued and the
row total reported by the final log record (extra rows_total). -/
structure UpsertOutcome where
  trace : List DBEvent
  rowsApplied : ℕ
  deriving DecidableEq, Repr

/-- DatabaseConnector.upsert_dataframe when every statement and commit
succeeds: issues the checkpointed event sequence and reports the number of
records as rows applied. -/
def upsert_dataframe (t : DBTable) (records : List Record)
    (conflictColumns : List String) : UpsertOutcome :=
  { trace := upsertTrace t records conflictColumns
    rowsApplied := records.length }

/-- The SQLAlchemy exception class of an error raised by the database
layer — the thing retry_if_exception_type tests with isinstance.
sqlalchemy.exc.OperationalError wraps psycopg2.OperationalError;
sqlalchemy.exc.ArgumentError is raised, before any connection attempt, for
a malformed connection URL. -/
inductive DBExcClass where
  | operationalError
  | argumentError
  | otherClass
  deriving DecidableEq, Repr

/-- The underlying cause of a database-layer failure, independent of the
exception class it surfaces as: which class a cause surfaces as is decided
by the driver, not by this repository. -/
inductive DBErrorCause where
  | connectionFailure
  | authenticationFailure
  | configurationFailure
  | otherCause
  deriving DecidableEq, Repr

/-- An exception raised by the database layer: the SQLAlchemy exception
class it is an instance of, and the cause of the underlying failure. -/
structure DBExc where
  sqlaClass : DBExcClass
  cause : DBErrorCause
  msg : String
  deriving DecidableEq, Repr

/-- retry_if_exception_type(OperationalError): the isinstance test on the
exception class alone; the cause of the failure is not consulted. -/
def isOperationalError (e : DBExc) : Bool :=
  e.sqlaClass == .operationalError

/-- Modelled from the psycopg2/PostgreSQL environment this code targets
(connection scheme postgresql://, postgresql insert dialect): a failed
password authentication is raised by the driver as
psycopg2.OperationalError and surfaces as sqlalchemy.exc.OperationalError,
the very class the retry predicate accepts. -/
def psycopg2AuthFailure : DBExc :=
  ⟨.operationalError, .authenticationFailure,
    "FATAL: password authentication failed"⟩

/-- Driving the events of an upsert through the connection; the first
failing action raises and aborts the sequence. -/
def runEvents (exec : DBEvent → Except DBExc Unit) :
    List DBEvent → Except DBExc Unit
  | [] => .ok ()
  | e :: es => do
      let _ ← exec e
      runEvents exec es

/-- upsert_dataframe with a fallible connection: the except clause logs the
exception and re-raises it unchanged, never returning a result. -/
def upsert_dataframe_run (exec : DBEvent → Except DBExc Unit) (t : DBTable)
    (records : List Record) (conflictColumns : List String) :
    Except DBExc UpsertOutcome :=
  match runEvents exec (upsertTrace t records conflictColumns) with
  | .ok _ => .ok (upsert_dataframe t records conflictColumns)
  | .error e => .error e

/-- DatabaseConnector.execute_query: pd.read_sql wrapped in a try/except
that logs the exception and re-raises it unchanged. -/
def execute_query (readSql : String → Except DBExc Dataset) (query : String) :
    Except DBExc Dataset :=
  match readSql query with
  | .ok df => .ok df
  | .error e => .error e

/-- Python max on two rationals. -/
def ratMax (a b : ℚ) : ℚ :=
  if a ≤ b then b else a

/-- Python min on two rationals. -/
def ratMin (a b : ℚ) : ℚ :=
  if a ≤ b then a else b

/-- Two to the n-th as a rational (the exp_base 2 power of tenacity). -/
def pow2 : ℕ → ℚ
  | 0 => 1
  | n + 1 => 2 * pow2 n

/-- tenacity wait_exponential(multiplier, min, max) evaluated after the
n-th attempt: clamp multiplier times 2 to the n-th between the minimum and
the maximum. -/
def waitExponential (multiplier mn mx : ℚ) (n : ℕ) : ℚ :=
  ratMax (ratMax 0 mn) (ratMin (multiplier * pow2 n) mx)

/-- The wait policy of _create_engine_with_retry:
wait_exponential(multiplier=1, min=2, max=10). -/
def connectWait (n : ℕ) : ℚ :=
  waitExponential 1 2 10 n

/-- A finished retry run: the final result (the raised exception is the
exception of the final attempt, unwrapped, since reraise=True), the number
of the attempt that ended the run, and the waits slept between attempts. -/
structure RetryTrace (A : Type) where
  result : Except DBExc A
  attempts : ℕ
  waits : List ℚ
  deriving Repr

/-- The tenacity loop: at most `remaining` further attempts; an attempt
that succeeds returns; a raised exception is retried, after sleeping the
wait of the current attempt number, only when the retry predicate accepts
it and an attempt is still allowed, and is otherwise re-raised as is. -/
def runRetry {A : Type} (retryOn : DBExc → Bool) (wait : ℕ → ℚ)
    (behavior : ℕ → Except DBExc A) :
    (remaining : ℕ) → (attempt : ℕ) → RetryTrace A
  | 0, n => ⟨.error ⟨.otherClass, .otherCause, "stop before first attempt"⟩, n, []⟩
  | 1, n => ⟨behavior n, n, []⟩
  | r + 2, n =>
      match behavior n with
      | .ok a => ⟨.ok a, n, []⟩
      | .error e =>
          if retryOn e then
            let rest := runRetry retryOn wait behavior (r + 1) (n + 1)
            ⟨rest.result, rest.attempts, wait n :: rest.waits⟩
          else ⟨.error e, n, []⟩

/-- DatabaseConnector._create_engine_with_retry: stop_after_attempt(3),
wait_exponential(multiplier=1, min=2, max=10),
retry_if_exception_type(OperationalError), reraise=True.  The behavior of
attempt n (building the engine and running SELECT 1) is supplied by the
environment. -/
def create_engine_with_retry {A : Type} (behavior : ℕ → Except DBExc A) :
    RetryTrace A :=
  runRetry isOperationalError connectWait behavior 3 1

/-- Cell preservation between two cell lists: every position that held a
non-null value before holds the same value afterwards. -/
def preservesCells {α : Type} (old new : List (Option α)) : Prop :=
  ∀ (j : ℕ) (v : α), old[j]? = some (some v) → new[j]? = some (some v)

/-- Column-level frame relation: same dtype kind (and integer width), and
every non-null cell kept identical. -/
def ColumnData.preservedBy : ColumnData → ColumnData → Prop
  | .floatCol o, .floatCol n => preservesCells o n
  | .intCol w o, .intCol w2 n => w = w2 ∧ preservesCells o n
  | .strCol o, .strCol n => preservesCells o n
  | .dtCol o, .dtCol n => o = n
  | _, _ => False

/-- Modelled from the spec: the tie-break the specification asserts for the
categorical fill, the most frequent non-null value with ties broken by the
first-encountered value in column order. -/
def firstEncounteredMode (vals : List String) : Option String :=
  vals.find? (fun s => decide (∀ v ∈ vals, vals.count v ≤ vals.count s))

/-- Modelled from the spec: the update set the claim asserts for the upsert
statement, every destination-table column that is neither a conflict column
nor an identity/auto-increment column. -/
def updateColumnsSpec (t : DBTable) (conflictColumns : List String) :
    List String :=
  (t.columns.filter
    (fun c => !(conflictColumns.contains c.name) && !c.isIdentity)).map
    (fun c => c.name)

/-- The cell at position j exists and is null. -/
def ColumnData.isNullAt : ColumnData → ℕ → Prop
  | .floatCol cs, j => cs[j]? = some none
  | .intCol _ cs, j => cs[j]? = some none
  | .strCol cs, j => cs[j]? = some none
  | .dtCol cs, j => cs[j]? = some none

/-- The cell at position j exists, is non-null, and the elementary datetime
parser rejects it. -/
def unparseableAt (parseS : String → Option ℚ) (parseN : ℚ → Option ℚ) :
    ColumnData → ℕ → Prop
  | .strCol cs, j => ∃ s, cs[j]? = some (some s) ∧ parseS s = none
  | .floatCol cs, j => ∃ q, cs[j]? = some (some q) ∧ parseN q = none
  | .intCol _ cs, j => ∃ z, cs[j]? = some (some z) ∧ parseN (z : ℚ) = none
  | .dtCol _, _ => False

theorem length_insertSorted (q : ℚ) (l : List ℚ) :
    (insertSorted q l).length = l.length + 1 := by
  induction l with
  | nil => rfl
  | cons x xs ih =>
      unfold insertSorted
      split
      · simp
      · simp [ih]

theorem length_sortRat (l : List ℚ) : (sortRat l).length = l.length := by
  induction l with
  | nil => rfl
  | cons x xs ih =>
      show (insertSorted x (sortRat xs)).length = xs.length + 1
      rw [length_insertSorted, ih]

theorem medianRat_isSome {l : List ℚ} (h : l ≠ []) :
    (medianRat l).isSome = true := by
  have hl : (sortRat l).length = l.length := length_sortRat l
  have hnz : l.length ≠ 0 := by
    intro h0
    exact h (List.length_eq_zero.mp h0)
  unfold medianRat
  split
  · omega
  · split <;> rfl

theorem missingCount_map_some {α β : Type} (cells : List (Option α))
    (f : Option α → β) :
    missingCount (cells.map (fun c => some (f c))) = 0 := by
  simp [missingCount, List.countP_eq_zero]

theorem preservesCells_refl {α : Type} (cells : List (Option α)) :
    preservesCells cells cells :=
  fun _ _ h => h

theorem preservesCells_map_getD {α : Type} (cells : List (Option α)) (m : α) :
    preservesCells cells (cells.map (fun c => some (c.getD m))) := by
  intro j v h
  simp [List.getElem?_map, h]

theorem fillNumericRat_length (cells : List (Option ℚ)) :
    (fillNumericRat cells).length = cells.length := by
  unfold fillNumericRat
  split
  · split <;> simp
  · rfl

theorem fillNumericRat_missing {cells : List (Option ℚ)}
    (h : somes cells ≠ []) : missingCount (fillNumericRat cells) = 0 := by
  unfold fillNumericRat
  split
  · rename_i hmiss
    rcases hm : medianRat (somes cells) with _ | m
    · have := medianRat_isSome h
      simp [hm] at this
    · simp [missingCount_map_some]
  · rename_i hmiss
    omega

theorem fillNumericRat_preserves (cells : List (Option ℚ)) :
    preservesCells cells (fillNumericRat cells) := by
  unfold fillNumericRat
  split
  · rcases hm : medianRat (somes cells) with _ | m
    · exact preservesCells_refl cells
    · exact preservesCells_map_getD cells m
  · exact preservesCells_refl cells

theorem fillNumericInt_ok {cells cells2 : List (Option ℤ)}
    (h : fillNumericInt cells = .ok cells2) :
    cells2.length = cells.length ∧ preservesCells cells cells2 ∧
      (somes cells ≠ [] → missingCount cells2 = 0) := by
  unfold fillNumericInt at h
  split at h
  · split at h
    · split at h
      · injection h with h
        subst h
        exact ⟨by simp, preservesCells_map_getD cells _,
          fun _ => missingCount_map_some cells _⟩
      · exact absurd h (by simp)
    · rename_i hmiss hm
      injection h with h
      subst h
      refine ⟨rfl, preservesCells_refl cells, ?_⟩
      intro hne
      have hmap : (somes cells).map (fun (z : ℤ) => (z : ℚ)) ≠ [] := by
        intro h0
        exact hne (by simpa using h0)
      have := medianRat_isSome hmap
      simp [hm] at this
  · rename_i hmiss
    injection h with h
    subst h
    exact ⟨rfl, preservesCells_refl cells, fun _ => by omega⟩

theorem fillCategorical_length (cells : List (Option String)) :
    (fillCategorical cells).length = cells.length := by
  unfold fillCategorical
  split
  · split <;> simp
  · rfl

theorem fillCategorical_missing (cells : List (Option String)) :
    missingCount (fillCategorical cells) = 0 := by
  unfold fillCategorical
  split
  · split <;> exact missingCount_map_some cells _
  · rename_i hmiss
    omega

theorem fillCategorical_preserves (cells : List (Option String)) :
    preservesCells cells (fillCategorical cells) := by
  unfold fillCategorical
  split
  · rcases hm : modeHead (somes cells) with _ | m
    · exact preservesCells_map_getD cells _
    · exact preservesCells_map_getD cells m
  · exact preservesCells_refl cells

theorem imputeColumn_ok {c c2 : Column} (h : imputeColumn c = .ok c2) :
    c2.name = c.name ∧ c2.data.size = c.data.size ∧
      c.data.preservedBy c2.data ∧
      (c.data.isNumeric = true → c.data.hasNonNull = true →
        c2.data.missing = 0) ∧
      (c.data.isText = true → c2.data.missing = 0) := by
  rcases c with ⟨name, data⟩
  cases data with
  | floatCol cs =>
      simp only [imputeColumn] at h
      injection h with h
      subst h
      refine ⟨rfl, by simp [ColumnData.size, fillNumericRat_length], ?_, ?_, ?_⟩
      · exact fillNumericRat_preserves cs
      · intro _ hnn
        have : somes cs ≠ [] := by
          simp only [ColumnData.hasNonNull, bne_iff_ne, ne_eq] at hnn
          intro h0
          rw [h0] at hnn
          simp at hnn
        simpa [ColumnData.missing] using fillNumericRat_missing this
      · intro hx
        simp [ColumnData.isText] at hx
  | intCol w cs =>
      simp only [imputeColumn] at h
      rcases hfi : fillNumericInt cs with e | cs2
      · rw [hfi] at h
        simp [Except.map] at h
      · rw [hfi] at h
        simp only [Except.map, Except.ok.injEq] at h
        obtain ⟨hlen, hpres, hmiss⟩ := fillNumericInt_ok hfi
        subst h
        refine ⟨rfl, by simp [ColumnData.size, hlen], ?_, ?_, ?_⟩
        · exact ⟨rfl, hpres⟩
        · intro _ hnn
          have : somes cs ≠ [] := by
            simp only [ColumnData.hasNonNull, bne_iff_ne, ne_eq] at hnn
            intro h0
            rw [h0] at hnn
            simp at hnn
          simpa [ColumnData.missing] using hmiss this
        · intro hx
          simp [ColumnData.isText] at hx
  | strCol cs =>
      simp only [imputeColumn] at h
      injection h with h
      subst h
      refine ⟨rfl, by simp [ColumnData.size, fillCategorical_length], ?_, ?_, ?_⟩
      · exact fillCategorical_preserves cs
      · intro hx
        simp [ColumnData.isNumeric] at hx
      · intro _
        simpa [ColumnData.missing] using fillCategorical_missing cs
  | dtCol cs =>
      simp only [imputeColumn] at h
      injection h with h
      subst h
      refine ⟨rfl, rfl, ?_, ?_, ?_⟩
      · simp [ColumnData.preservedBy]
      · intro hx
        simp [ColumnData.isNumeric] at hx
      · intro hx
        simp [ColumnData.isText] at hx

theorem imputeDataset_forall2 :
    ∀ {d d2 : Dataset}, imputeDataset d = .ok d2 →
      List.Forall₂ (fun c c2 => imputeColumn c = .ok c2) d d2 := by
  intro d
  induction d with
  | nil =>
      intro d2 h
      simp only [imputeDataset] at h
      injection h with h
      subst h
      exact List.Forall₂.nil
  | cons c cs ih =>
      intro d2 h
      simp only [imputeDataset] at h
      rcases h1 : imputeColumn c with e | c2
      · rw [h1] at h
        simp [Bind.bind, Except.bind] at h
      · rw [h1] at h
        rcases h2 : imputeDataset cs with e | cs2
        · rw [h2] at h
          simp [Bind.bind, Except.bind] at h
        · rw [h2] at h
          simp [Bind.bind, Except.bind, pure, Except.pure] at h
          subst h
          exact List.Forall₂.cons h1 (ih h2)

theorem handle_missing_values_ok {d d2 : Dataset}
    (h : handle_missing_values (some d) = some d2) :
    imputeDataset d = .ok d2 := by
  simp only [handle_missing_values] at h
  rcases hb : imputeDataset d with e | d3
  · rw [hb] at h
    simp [tryCatchToNone] at h
  · rw [hb] at h
    simp [tryCatchToNone] at h
    rw [h]

theorem forall2_getElem? {R : Column → Column → Prop} :
    ∀ {d d2 : Dataset}, List.Forall₂ R d d2 →
      ∀ (i : ℕ) (c c2 : Column), d[i]? = some c → d2[i]? = some c2 → R c c2 := by
  intro d d2 hf
  induction hf with
  | nil =>
      intro i c c2 h1 _
      simp at h1
  | cons hr _ ih =>
      intro i c c2 h1 h2
      match i with
      | 0 =>
          simp at h1 h2
          rw [← h1, ← h2]
          exact hr
      | i + 1 =>
          simp at h1 h2
          exact ih i c c2 h1 h2

/-- Claim C1: after handle_missing_values completes successfully, the
DataFrame has the same number of columns, every column keeps its row
count, and every processed column — a numeric column with at least one
non-null value, or a text column — has null count 0. -/
theorem C1_imputation_postcondition (d d2 : Dataset)
    (h : handle_missing_values (some d) = some d2) :
    d2.length = d.length ∧
      ∀ (i : ℕ) (c c2 : Column), d[i]? = some c → d2[i]? = some c2 →
        (c2.data.size = c.data.size ∧
          (c.data.isNumeric = true → c.data.hasNonNull = true →
            c2.data.missing = 0) ∧
          (c.data.isText = true → c2.data.missing = 0)) := by
  have hb := handle_missing_values_ok h
  have hf := imputeDataset_forall2 hb
  refine ⟨hf.length_eq.symm, ?_⟩
  intro i c c2 h1 h2
  have hr := forall2_getElem? hf i c c2 h1 h2
  obtain ⟨_, hsize, _, hnum, htext⟩ := imputeColumn_ok hr
  exact ⟨hsize, hnum, htext⟩

/-- Witness for C1 at the concrete DataFrame of the specification example:
one numeric column 1, 2, null, 4; its null is filled with the median 2 and
no row is dropped. -/
theorem C1_imputation_postcondition_witness :
    handle_missing_values
        (some [⟨"A", .floatCol [some 1, some 2, none, some 4]⟩]) =
      some [⟨"A", .floatCol [some 1, some 2, some 2, some 4]⟩] ∧
      ([⟨"A", .floatCol [some 1, some 2, some 2, some 4]⟩] : Dataset).length =
        ([⟨"A", .floatCol [some 1, some 2, none, some 4]⟩] : Dataset).length :=
  ⟨by decide,
    (C1_imputation_postcondition _ _ (by decide)).1⟩

/-- Claim C10: handle_missing_values only changes cells that were null:
column names are unchanged (no columns added or removed) and every cell
that was non-null before the call holds the same value afterwards. -/
theorem C10_imputation_frame (d d2 : Dataset)
    (h : handle_missing_values (some d) = some d2) :
    d2.map (fun c => c.name) = d.map (fun c => c.name) ∧
      ∀ (i : ℕ) (c c2 : Column), d[i]? = some c → d2[i]? = some c2 →
        c.data.preservedBy c2.data := by
  have hb := handle_missing_values_ok h
  have hf := imputeDataset_forall2 hb
  constructor
  · clear h hb
    induction hf with
    | nil => rfl
    | cons hr _ ih =>
        have := (imputeColumn_ok hr).1
        simp [this, ih]
  · intro i c c2 h1 h2
    have hr := forall2_getElem? hf i c c2 h1 h2
    exact (imputeColumn_ok hr).2.2.1

/-- Witness for C10: in the example DataFrame the three non-null cells are
intact after imputation and the column list is unchanged. -/
theorem C10_imputation_frame_witness :
    handle_missing_values
        (some [⟨"B", .strCol [some "x", none, some "z", some "w"]⟩]) =
      some [⟨"B", .strCol [some "x", some "w", some "z", some "w"]⟩] ∧
      ([⟨"B", .strCol [some "x", some "w", some "z", some "w"]⟩] : Dataset).map
          (fun c => c.name) =
        ([⟨"B", .strCol [some "x", none, some "z", some "w"]⟩] : Dataset).map
          (fun c => c.name) :=
  ⟨by decide, (C10_imputation_frame _ _ (by decide)).1⟩

/-- DataCleaner.load_data leaves self.data untouched and returns None on
every read failure. -/
theorem load_data_failure (readCsv : String → ReadCsvOutcome)
    (st : DataCleanerState) (h : ∀ df, readCsv st.filepath ≠ .ok df) :
    load_data readCsv st = (st, none) := by
  unfold load_data
  rcases hr : readCsv st.filepath with df | _ | _ | m
  · exact absurd hr (h df)
  · rfl
  · rfl
  · rfl

/-- Claim C9: when load_data fails because the file is missing, empty or
malformed, it returns None and the previously stored dataset of the
cleaner is left unchanged. -/
theorem C9_load_failure (readCsv : String → ReadCsvOutcome)
    (st : DataCleanerState)
    (h : readCsv st.filepath = .fileNotFound ∨
      readCsv st.filepath = .emptyDataError ∨
      ∃ m, readCsv st.filepath = .otherError m) :
    (load_data readCsv st).2 = none ∧ (load_data readCsv st).1.data = st.data := by
  have : load_data readCsv st = (st, none) := by
    apply load_data_failure
    intro df hok
    rcases h with h | h | ⟨m, h⟩ <;> rw [hok] at h <;> exact ReadCsvOutcome.noConfusion h
  rw [this]
  exact ⟨rfl, rfl⟩

/-- Witness for C9: a file-not-found read against a cleaner that already
holds a dataset returns None and keeps the stored dataset. -/
theorem C9_load_failure_witness :
    (load_data (fun _ => .fileNotFound)
        ⟨"missing.csv", some [⟨"A", .floatCol [some 1]⟩]⟩).2 = none ∧
      (load_data (fun _ => .fileNotFound)
          ⟨"missing.csv", some [⟨"A", .floatCol [some 1]⟩]⟩).1.data =
        some [⟨"A", .floatCol [some 1]⟩] :=
  C9_load_failure _ _ (Or.inl rfl)

theorem charListLe_refl (as : List Char) : charListLe as as = true := by
  induction as with
  | nil => rfl
  | cons a as ih =>
      unfold charListLe
      simp [ih]

theorem charListLe_total (as bs : List Char) :
    charListLe as bs = true ∨ charListLe bs as = true := by
  induction as generalizing bs with
  | nil => left; rfl
  | cons a as ih =>
      cases bs with
      | nil => right; rfl
      | cons b bs =>
          unfold charListLe
          rcases Nat.lt_trichotomy a.toNat b.toNat with hlt | heq | hgt
          · left
            simp [hlt]
          · rcases ih bs with h | h
            · left
              simp [heq, h]
            · right
              simp [heq, h]
          · right
            simp [hgt, Nat.lt_asymm hgt]

theorem charListLe_trans {as bs cs : List Char} (h1 : charListLe as bs = true)
    (h2 : charListLe bs cs = true) : charListLe as cs = true := by
  induction as generalizing bs cs with
  | nil => rfl
  | cons a as ih =>
      cases bs with
      | nil => simp [charListLe] at h1
      | cons b bs =>
          cases cs with
          | nil => simp [charListLe] at h2
          | cons c cs =>
              unfold charListLe at h1 h2 ⊢
              split at h1
              · rename_i hab
                split at h2
                · rename_i hbc
                  simp [Nat.lt_trans hab hbc]
                · split at h2
                  · simp at h2
                  · rename_i hcb hbc
                    have hbc2 : b.toNat = c.toNat := by omega
                    simp [hbc2 ▸ hab]
              · split at h1
                · simp at h1
                · rename_i hba hab
                  have hab2 : a.toNat = b.toNat := by omega
                  split at h2
                  · rename_i hbc
                    simp [hab2 ▸ hbc]
                  · split at h2
                    · simp at h2
                    · rename_i hcb hbc
                      have hbc2 : b.toNat = c.toNat := by omega
                      rw [hab2, hbc2]
                      simp [ih h1 h2]

theorem strLe_refl (a : String) : strLe a a = true :=
  charListLe_refl a.toList

theorem strLe_total (a b : String) : strLe a b = true ∨ strLe b a = true :=
  charListLe_total a.toList b.toList

theorem strLe_trans {a b c : String} (h1 : strLe a b = true)
    (h2 : strLe b c = true) : strLe a c = true :=
  charListLe_trans h1 h2

theorem minString_spec {l : List String} {m : String}
    (h : minString l = some m) : m ∈ l ∧ ∀ v ∈ l, strLe m v = true := by
  cases l with
  | nil => simp [minString] at h
  | cons x xs =>
      simp only [minString, Option.some.injEq] at h
      subst h
      induction xs generalizing x with
      | nil =>
          refine ⟨by simp, ?_⟩
          intro v hv
          simp at hv
          subst hv
          exact strLe_refl _
      | cons y ys ih =>
          have step : List.foldl (fun m v => if strLe v m = true then v else m)
              x (y :: ys) = List.foldl (fun m v => if strLe v m = true then v else m)
              (if strLe y x = true then y else x) ys := rfl
          obtain ⟨hmem, hle⟩ := ih (if strLe y x = true then y else x)
          rw [step]
          have hfxy_le_x : strLe (if strLe y x = true then y else x) x = true := by
            split
            · assumption
            · exact strLe_refl x
          have hfxy_le_y : strLe (if strLe y x = true then y else x) y = true := by
            split
            · exact strLe_refl y
            · rename_i hyx
              rcases strLe_total x y with h | h
              · exact h
              · simp [h] at hyx
          constructor
          · by_cases hyx : strLe y x = true
            · rw [if_pos hyx] at hmem ⊢
              exact List.mem_cons_of_mem x hmem
            · rw [if_neg hyx] at hmem ⊢
              rcases List.mem_cons.mp hmem with hm | hm
              · rw [hm]
                exact List.mem_cons_self x (y :: ys)
              · exact List.mem_cons_of_mem x (List.mem_cons_of_mem y hm)
          · intro v hv
            rcases List.mem_cons.mp hv with hv | hv
            · subst hv
              exact strLe_trans (hle _ (List.mem_cons_self _ _)) hfxy_le_x
            · rcases List.mem_cons.mp hv with hv | hv
              · subst hv
                exact strLe_trans (hle _ (List.mem_cons_self _ _)) hfxy_le_y
              · exact hle v (List.mem_cons_of_mem _ hv)

theorem minString_isSome {l : List String} (h : l ≠ []) :
    ∃ m, minString l = some m := by
  cases l with
  | nil => exact absurd rfl h
  | cons x xs => exact ⟨_, rfl⟩

theorem modeHead_isSome {vals : List String} (h : vals ≠ []) :
    ∃ m, modeHead vals = some m := by
  rcases vals with _ | ⟨x, xs⟩
  · exact absurd rfl h
  · rcases hmax : (x :: xs).argmax (fun s => (x :: xs).count s) with _ | a
    · rw [List.argmax_eq_none] at hmax
      exact absurd hmax (by simp)
    · have hamem : a ∈ (x :: xs).argmax (fun s => (x :: xs).count s) := by
        rw [hmax]
        rfl
      have hin : a ∈ x :: xs := List.argmax_mem hamem
      have hcand : a ∈ (x :: xs).filter
          (fun s => decide (∀ v ∈ x :: xs, (x :: xs).count v ≤ (x :: xs).count s)) := by
        rw [List.mem_filter]
        refine ⟨hin, ?_⟩
        rw [decide_eq_true_iff]
        intro v hv
        exact List.le_of_mem_argmax hv hamem
      have hne : (x :: xs).filter
          (fun s => decide (∀ v ∈ x :: xs, (x :: xs).count v ≤ (x :: xs).count s)) ≠ [] :=
        List.ne_nil_of_mem hcand
      obtain ⟨m, hm⟩ := minString_isSome hne
      exact ⟨m, hm⟩

theorem modeHead_spec {vals : List String} {m : String}
    (h : modeHead vals = some m) :
    m ∈ vals ∧ (∀ v ∈ vals, vals.count v ≤ vals.count m) ∧
      (∀ v ∈ vals, vals.count v = vals.count m → strLe m v = true) := by
  obtain ⟨hmem, hle⟩ := minString_spec h
  rw [List.mem_filter] at hmem
  obtain ⟨hin, hmax⟩ := hmem
  rw [decide_eq_true_iff] at hmax
  refine ⟨hin, hmax, ?_⟩
  intro v hv hcount
  apply hle
  rw [List.mem_filter]
  refine ⟨hv, ?_⟩
  rw [decide_eq_true_iff]
  intro u hu
  calc vals.count u ≤ vals.count m := hmax u hu
  _ = vals.count v := hcount.symm

/-- Claim C5 counterexample: on the column b, a, null the two non-null
values tie with one occurrence each; the first-encountered value is b, yet
the code fills the null with a, because pandas mode() returns the tied
values sorted and the code takes its first entry. -/
theorem C5_counterexample :
    handle_missing_values
        (some [⟨"Country", .strCol [some "b", some "a", none]⟩]) =
      some [⟨"Country", .strCol [some "b", some "a", some "a"]⟩] ∧
      firstEncounteredMode ["b", "a"] = some "b" :=
  ⟨by decide, by decide⟩

/-- Claim C5 as amended: for a text column with at least one null,
handle_missing_values fills every null with the head of pandas mode(),
which is the least value in code-point order among the most frequent
non-null values — not the first-encountered one — and fills with the
literal Unknown when no non-null value exists. -/
theorem C5_text_fill (cells : List (Option String)) (name : String)
    (hmiss : 0 < missingCount cells) :
    handle_missing_values (some [⟨name, .strCol cells⟩]) =
      some [⟨name, .strCol (fillCategorical cells)⟩] ∧
      (somes cells = [] →
        fillCategorical cells = cells.map (fun c => some (c.getD "Unknown"))) ∧
      (somes cells ≠ [] →
        ∃ m, modeHead (somes cells) = some m ∧ m ∈ somes cells ∧
          (∀ v ∈ somes cells, (somes cells).count v ≤ (somes cells).count m) ∧
          (∀ v ∈ somes cells, (somes cells).count v = (somes cells).count m →
            strLe m v = true) ∧
          fillCategorical cells = cells.map (fun c => some (c.getD m))) := by
  refine ⟨?_, ?_, ?_⟩
  · simp [handle_missing_values, imputeDataset, imputeColumn, tryCatchToNone,
      Bind.bind, Except.bind, pure, Except.pure]
  · intro hnil
    unfold fillCategorical
    rw [if_pos hmiss, hnil]
    rfl
  · intro hne
    obtain ⟨m, hm⟩ := modeHead_isSome hne
    obtain ⟨hmem, hmax, htie⟩ := modeHead_spec hm
    refine ⟨m, hm, hmem, hmax, htie, ?_⟩
    unfold fillCategorical
    rw [if_pos hmiss, hm]

/-- Witness for the amended C5 on a column with nulls and a unique mode x;
the null is filled with x. -/
theorem C5_text_fill_witness :
    handle_missing_values
        (some [⟨"Country", .strCol [some "x", none, some "x", some "y"]⟩]) =
      some [⟨"Country",
        .strCol (fillCategorical [some "x", none, some "x", some "y"])⟩] ∧
      ∃ m, modeHead (somes [some "x", none, some "x", some "y"]) = some m ∧
        m ∈ somes [some "x", none, some "x", some "y"] ∧
        (∀ v ∈ somes [some "x", none, some "x", some "y"],
          (somes [some "x", none, some "x", some "y"]).count v ≤
            (somes [some "x", none, some "x", some "y"]).count m) ∧
        (∀ v ∈ somes [some "x", none, some "x", some "y"],
          (somes [some "x", none, some "x", some "y"]).count v =
            (somes [some "x", none, some "x", some "y"]).count m →
          strLe m v = true) ∧
        fillCategorical [some "x", none, some "x", some "y"] =
          ([some "x", none, some "x", some "y"] : List (Option String)).map
            (fun c => some (c.getD m)) :=
  ⟨(C5_text_fill [some "x", none, some "x", some "y"] "Country" (by decide)).1,
    (C5_text_fill [some "x", none, some "x", some "y"] "Country"
      (by decide)).2.2 (by decide)⟩

theorem narrowNumericColumns_forall2 :
    ∀ {d d2 : Dataset}, narrowNumericColumns d = .ok d2 →
      List.Forall₂ (fun c c2 => narrowColumn c = .ok c2) d d2 := by
  intro d
  induction d with
  | nil =>
      intro d2 h
      simp only [narrowNumericColumns] at h
      injection h with h
      subst h
      exact List.Forall₂.nil
  | cons c cs ih =>
      intro d2 h
      simp only [narrowNumericColumns] at h
      rcases h1 : narrowColumn c with e | c2
      · rw [h1] at h
        simp [Bind.bind, Except.bind] at h
      · rw [h1] at h
        rcases h2 : narrowNumericColumns cs with e | cs2
        · rw [h2] at h
          simp [Bind.bind, Except.bind] at h
        · rw [h2] at h
          simp [Bind.bind, Except.bind, pure, Except.pure] at h
          subst h
          exact List.Forall₂.cons h1 (ih h2)

theorem narrowColumn_dtCol (name : String) (cs : List (Option ℚ)) :
    narrowColumn ⟨name, .dtCol cs⟩ = .ok ⟨name, .dtCol cs⟩ :=
  rfl

theorem narrowColumn_coerce (pS : String → Option ℚ) (pN : ℚ → Option ℚ)
    (c : Column) :
    narrowColumn (pdToDatetimeCoerce pS pN c) =
      .ok (pdToDatetimeCoerce pS pN c) :=
  rfl

theorem correct_datatypes_ok {pS : String → Option ℚ} {pN : ℚ → Option ℚ}
    {d d2 : Dataset} (h : correct_datatypes pS pN (some d) = some d2) :
    narrowNumericColumns
      (convertDateColumns (fun c => .ok (pdToDatetimeCoerce pS pN c)) d) =
      .ok d2 := by
  simp only [correct_datatypes] at h
  rcases hn : narrowNumericColumns
      (convertDateColumns (fun c => .ok (pdToDatetimeCoerce pS pN c)) d)
    with e | d3
  · rw [hn] at h
    simp [tryCatchToNone] at h
  · rw [hn] at h
    simp [tryCatchToNone] at h
    rw [h]

/-- Claim C8: every column whose name contains date or time
(case-insensitive) is parsed coercively: after the conversion the cell at a
position is null exactly when it was null before or the parser rejects its
value, no exception escapes the conversion of a column, a failing column is
left unchanged while the loop continues, and each column of the loop is
processed independently of the others; under a successful
correct_datatypes run every matching column of the result is exactly the
coerced column. -/
theorem C8_datetime_coercion :
    (∀ (pS : String → Option ℚ) (pN : ℚ → Option ℚ) (c : Column),
      isDateTimeName c.name = true →
        dateStep (fun c2 => .ok (pdToDatetimeCoerce pS pN c2)) c =
          pdToDatetimeCoerce pS pN c) ∧
    (∀ (pS : String → Option ℚ) (pN : ℚ → Option ℚ) (c : Column) (j : ℕ),
      (pdToDatetimeCoerce pS pN c).data.isNullAt j ↔
        (c.data.isNullAt j ∨ unparseableAt pS pN c.data j)) ∧
    (∀ (conv : Column → Except PyError Column) (cols : List Column) (i : ℕ),
      (convertDateColumns conv cols)[i]? = (cols[i]?).map (dateStep conv)) ∧
    (∀ (conv : Column → Except PyError Column) (c : Column) (e : PyError),
      conv c = .error e → dateStep conv c = c) ∧
    (∀ (pS : String → Option ℚ) (pN : ℚ → Option ℚ) (d d2 : Dataset),
      correct_datatypes pS pN (some d) = some d2 →
      ∀ (i : ℕ) (c : Column), d[i]? = some c → isDateTimeName c.name = true →
        d2[i]? = some (pdToDatetimeCoerce pS pN c)) := by
  refine ⟨?_, ?_, ?_, ?_, ?_⟩
  · intro pS pN c hname
    simp [dateStep, hname]
  · intro pS pN c j
    rcases c with ⟨name, data⟩
    cases data with
    | floatCol cs =>
        simp only [pdToDatetimeCoerce, coerceCells, ColumnData.isNullAt,
          unparseableAt, List.getElem?_map]
        rcases hcj : cs[j]? with _ | cell
        · simp
        · rcases cell with _ | q <;> simp
    | intCol w cs =>
        simp only [pdToDatetimeCoerce, coerceCells, ColumnData.isNullAt,
          unparseableAt, List.getElem?_map]
        rcases hcj : cs[j]? with _ | cell
        · simp
        · rcases cell with _ | z <;> simp
    | strCol cs =>
        simp only [pdToDatetimeCoerce, coerceCells, ColumnData.isNullAt,
          unparseableAt, List.getElem?_map]
        rcases hcj : cs[j]? with _ | cell
        · simp
        · rcases cell with _ | s <;> simp
    | dtCol cs =>
        simp [pdToDatetimeCoerce, coerceCells, ColumnData.isNullAt,
          unparseableAt]
  · intro conv cols i
    simp [convertDateColumns, List.getElem?_map]
  · intro conv c e h
    unfold dateStep
    split
    · rw [h]
    · rfl
  · intro pS pN d d2 h i c hc hname
    have hn := correct_datatypes_ok h
    have hf := narrowNumericColumns_forall2 hn
    have hconv : (convertDateColumns
        (fun c2 => .ok (pdToDatetimeCoerce pS pN c2)) d)[i]? =
        some (pdToDatetimeCoerce pS pN c) := by
      simp [convertDateColumns, List.getElem?_map, hc, dateStep, hname]
    have hlen2 : (convertDateColumns
        (fun c2 => .ok (pdToDatetimeCoerce pS pN c2)) d).length = d2.length :=
      hf.length_eq
    have hi : i < d2.length := by
      have := (List.getElem?_eq_some.mp hconv).1
      omega
    have hd2 : d2[i]? = some d2[i] := List.getElem?_eq_getElem hi
    have hr := forall2_getElem? hf i _ _ hconv hd2
    rw [narrowColumn_coerce] at hr
    injection hr with hr
    rw [hd2, ← hr]

/-- Witness for C8 on the specification example: the column InvoiceDate
with one unparseable entry; the good cells parse, the bad cell becomes
null, and correct_datatypes delivers exactly the coerced column. -/
theorem C8_datetime_coercion_witness :
    ((pdToDatetimeCoerce
        (fun s => if s == "not-a-date" then none else some 1) (fun _ => none)
        ⟨"InvoiceDate", .strCol
          [some "2024-01-15", some "not-a-date", some "2024-01-17"]⟩).data.isNullAt 1) ∧
    ((correct_datatypes
        (fun s => if s == "not-a-date" then none else some 1) (fun _ => none)
        (some [⟨"InvoiceDate", .strCol
          [some "2024-01-15", some "not-a-date", some "2024-01-17"]⟩])).getD [])[0]? =
      some (pdToDatetimeCoerce
        (fun s => if s == "not-a-date" then none else some 1) (fun _ => none)
        ⟨"InvoiceDate", .strCol
          [some "2024-01-15", some "not-a-date", some "2024-01-17"]⟩) := by
  constructor
  · exact (C8_datetime_coercion.2.1 _ _ _ 1).mpr
      (Or.inr ⟨"not-a-date", rfl, rfl⟩)
  · exact C8_datetime_coercion.2.2.2.2
      (fun s => if s == "not-a-date" then none else some 1) (fun _ => none)
      [⟨"InvoiceDate", .strCol
        [some "2024-01-15", some "not-a-date", some "2024-01-17"]⟩]
      _ (by rfl) 0 _ (by rfl) (by rfl)

/-- Claim C2 is contradicted by the code: the narrowing branch for a
non-negative integral float column with max below 256 calls astype with the
pandas Int8 dtype, which is signed with greatest value 127, although the
comment and log line of the code say unsigned 0 to 255; on the
specification example 0, 100, 255 the astype safe-cast raises and
correct_datatypes returns None instead of narrowing to an unsigned 8-bit
column. -/
theorem C2_narrowing_code_bug :
    correct_datatypes (fun _ => none) (fun _ => none)
        (some [⟨"Amount", .floatCol [some 0, some 100, some 255]⟩]) = none ∧
      allIntegral [some 0, some 100, some 255] = true ∧
      chooseWidth (somes [some (0 : ℚ), some 100, some 255]).min?
        (somes [some (0 : ℚ), some 100, some 255]).max? = .w8 ∧
      IntWidth.hi .w8 = 127 ∧
      astypeNullableInt .w8 [some 0, some 100, some 255] =
        .error ⟨"TypeError: cannot safely cast non-equivalent float64"⟩ :=
  ⟨by decide, by decide, by decide, by decide, rfl⟩

theorem commitCount_cons_exec (s : UpsertStmt) (es : List DBEvent) :
    commitCount (DBEvent.execute s :: es) = commitCount es := by
  simp [commitCount, List.countP_cons]

theorem commitCount_append (a b : List DBEvent) :
    commitCount (a ++ b) = commitCount a + commitCount b := by
  simp [commitCount, List.countP_append]

theorem executeCount_cons_exec (s : UpsertStmt) (es : List DBEvent) :
    executeCount (DBEvent.execute s :: es) = executeCount es + 1 := by
  simp [executeCount, List.countP_cons]

theorem executeCount_append (a b : List DBEvent) :
    executeCount (a ++ b) = executeCount a + executeCount b := by
  simp [executeCount, List.countP_append]

theorem upsertLoop_commitCount (t : DBTable) (cc : List String) :
    ∀ (rs : List Record) (i : ℕ),
      commitCount (upsertLoop t cc rs (i + 1)) + i / 1000 =
        (i + rs.length) / 1000 := by
  intro rs
  induction rs with
  | nil =>
      intro i
      simp [upsertLoop, commitCount]
  | cons r rs ih =>
      intro i
      have hIH := ih (i + 1)
      rw [show upsertLoop t cc (r :: rs) (i + 1) =
        DBEvent.execute (buildUpsertStmt t r cc) ::
          ((if (i + 1) % 1000 == 0 then [DBEvent.commit] else []) ++
            upsertLoop t cc rs (i + 1 + 1)) from rfl]
      rw [commitCount_cons_exec, commitCount_append]
      have hlen : (r :: rs).length = rs.length + 1 := rfl
      by_cases h1000 : (i + 1) % 1000 = 0
      · rw [if_pos (by simp [h1000])]
        have h1 : commitCount [DBEvent.commit] = 1 := rfl
        rw [hlen, h1]
        omega
      · rw [if_neg (by simp [h1000])]
        have h0 : commitCount ([] : List DBEvent) = 0 := rfl
        rw [hlen, h0]
        omega

theorem upsertLoop_executeCount (t : DBTable) (cc : List String) :
    ∀ (rs : List Record) (i : ℕ),
      executeCount (upsertLoop t cc rs i) = rs.length := by
  intro rs
  induction rs with
  | nil =>
      intro i
      simp [upsertLoop, executeCount]
  | cons r rs ih =>
      intro i
      rw [show upsertLoop t cc (r :: rs) i =
        DBEvent.execute (buildUpsertStmt t r cc) ::
          ((if i % 1000 == 0 then [DBEvent.commit] else []) ++
            upsertLoop t cc rs (i + 1)) from rfl]
      rw [executeCount_cons_exec, executeCount_append, ih (i + 1)]
      by_cases h1000 : i % 1000 = 0
      · rw [if_pos (by simp [h1000])]
        have h0 : executeCount [DBEvent.commit] = 0 := rfl
        rw [h0]
        simp
      · rw [if_neg (by simp [h1000])]
        have h0 : executeCount ([] : List DBEvent) = 0 := rfl
        rw [h0]
        simp

theorem upsertTrace_commitCount (t : DBTable) (records : List Record)
    (cc : List String) :
    commitCount (upsertTrace t records cc) = records.length / 1000 + 1 := by
  unfold upsertTrace
  rw [commitCount_append]
  have h := upsertLoop_commitCount t cc records 0
  simp only [Nat.zero_div, Nat.add_zero, Nat.zero_add] at h
  rw [h]
  rfl

theorem upsertTrace_executeCount (t : DBTable) (records : List Record)
    (cc : List String) :
    executeCount (upsertTrace t records cc) = records.length := by
  unfold upsertTrace
  rw [executeCount_append, upsertLoop_executeCount]
  rfl

theorem upsertLoop_eq_flatMap (t : DBTable) (cc : List String) :
    ∀ (rs : List Record) (i : ℕ),
      upsertLoop t cc rs i =
        (List.range rs.length).flatMap (fun k =>
          DBEvent.execute (buildUpsertStmt t (rs.getD k []) cc) ::
            (if (i + k) % 1000 == 0 then [DBEvent.commit] else [])) := by
  intro rs
  induction rs with
  | nil =>
      intro i
      rfl
  | cons r rs ih =>
      intro i
      rw [show upsertLoop t cc (r :: rs) i =
        DBEvent.execute (buildUpsertStmt t r cc) ::
          ((if i % 1000 == 0 then [DBEvent.commit] else []) ++
            upsertLoop t cc rs (i + 1)) from rfl]
      rw [show (r :: rs).length = rs.length + 1 from rfl]
      rw [List.range_succ_eq_map, List.flatMap_cons, List.flatMap_map ..]
      have hfun : (fun k => DBEvent.execute
            (buildUpsertStmt t ((r :: rs).getD (Nat.succ k) []) cc) ::
            (if (i + Nat.succ k) % 1000 == 0 then [DBEvent.commit] else [])) =
          (fun k => DBEvent.execute (buildUpsertStmt t (rs.getD k []) cc) ::
            (if (i + 1 + k) % 1000 == 0 then [DBEvent.commit] else [])) := by
        funext k
        have h1 : (r :: rs).getD (Nat.succ k) [] = rs.getD k [] := rfl
        have h2 : i + Nat.succ k = i + 1 + k := by omega
        rw [h1, h2]
      rw [hfun, ← ih (i + 1)]
      simp

/-- Claim C3: the upsert loop issues one statement per record and commits
exactly after every record whose 1-based index is a multiple of 1000, plus
one final commit after the last record; the commit total is N / 1000 + 1
and the reported rows applied is N.  For 2500 records this gives exactly 2
intermediate commits plus the final one and rows applied 2500. -/
theorem C3_checkpoint_commits :
    (∀ (t : DBTable) (records : List Record) (cc : List String),
      upsertTrace t records cc =
        ((List.range records.length).flatMap (fun k =>
          DBEvent.execute (buildUpsertStmt t (records.getD k []) cc) ::
            (if (1 + k) % 1000 == 0 then [DBEvent.commit] else []))) ++
          [DBEvent.commit] ∧
      commitCount (upsertTrace t records cc) = records.length / 1000 + 1 ∧
      executeCount (upsertTrace t records cc) = records.length ∧
      (upsert_dataframe t records cc).rowsApplied = records.length) ∧
    (∀ (t : DBTable) (r : Record) (cc : List String),
      commitCount (upsertTrace t (List.replicate 2500 r) cc) = 3 ∧
      commitCount (upsertLoop t cc (List.replicate 2500 r) 1) = 2 ∧
      (upsert_dataframe t (List.replicate 2500 r) cc).rowsApplied = 2500) := by
  constructor
  · intro t records cc
    refine ⟨?_, upsertTrace_commitCount t records cc,
      upsertTrace_executeCount t records cc, rfl⟩
    unfold upsertTrace
    rw [upsertLoop_eq_flatMap t cc records 1]
  · intro t r cc
    have htr := upsertTrace_commitCount t (List.replicate 2500 r) cc
    simp only [List.length_replicate] at htr
    refine ⟨by rw [htr], ?_,
      show (List.replicate 2500 r).length = 2500 from List.length_replicate ..⟩
    have happ := commitCount_append
      (upsertLoop t cc (List.replicate 2500 r) 1) [DBEvent.commit]
    have h1 : commitCount [DBEvent.commit] = 1 := rfl
    have : commitCount (upsertTrace t (List.replicate 2500 r) cc) =
        commitCount (upsertLoop t cc (List.replicate 2500 r) 1) + 1 := by
      unfold upsertTrace
      rw [happ, h1]
    omega

/-- Claim C6 counterexample: the code excludes from the update set exactly
the column literally named id, not identity columns.  On a table whose
identity column is named seq, the generated update set contains seq
although the claim excludes it; and a non-identity column named id is
excluded although the claim includes it. -/
theorem C6_counterexample :
    updateColumns
        ⟨"sales_final",
          [⟨"InvoiceNo", false⟩, ⟨"seq", true⟩, ⟨"Quantity", false⟩]⟩
        ["InvoiceNo"] ≠
      updateColumnsSpec
        ⟨"sales_final",
          [⟨"InvoiceNo", false⟩, ⟨"seq", true⟩, ⟨"Quantity", false⟩]⟩
        ["InvoiceNo"] ∧
      (buildUpsertStmt
        ⟨"sales_final",
          [⟨"InvoiceNo", false⟩, ⟨"seq", true⟩, ⟨"Quantity", false⟩]⟩
        [("InvoiceNo", .str "536365"), ("seq", .int 7), ("Quantity", .int 6)]
        ["InvoiceNo"]).updateSet.map Prod.fst = ["seq", "Quantity"] ∧
      updateColumnsSpec
        ⟨"sales_final",
          [⟨"InvoiceNo", false⟩, ⟨"seq", true⟩, ⟨"Quantity", false⟩]⟩
        ["InvoiceNo"] = ["Quantity"] ∧
      updateColumns ⟨"t2", [⟨"k", false⟩, ⟨"id", false⟩]⟩ ["k"] = [] ∧
      updateColumnsSpec ⟨"t2", [⟨"k", false⟩, ⟨"id", false⟩]⟩ ["k"] = ["id"] :=
  ⟨by decide, by decide, by decide, by decide, by decide⟩

/-- Claim C6 as amended: the conflicting-key fallback of each generated
statement updates exactly the destination-table columns that are not in
conflict_columns and are not literally named id, assigning to each such
column the excluded value, i.e. the value the insert would have written
for that record. -/
theorem C6_update_set (t : DBTable) (record : Record) (cc : List String)
    (n : String) :
    ((∃ v, (n, v) ∈ (buildUpsertStmt t record cc).updateSet) ↔
      ((∃ tc, tc ∈ t.columns ∧ tc.name = n) ∧ cc.contains n = false ∧
        n ≠ "id")) ∧
      (∀ v, (n, v) ∈ (buildUpsertStmt t record cc).updateSet →
        v = record.lookup n) := by
  constructor
  · constructor
    · rintro ⟨v, hv⟩
      simp only [buildUpsertStmt, List.mem_map, Prod.mk.injEq] at hv
      obtain ⟨n2, hn2, hn2n, _⟩ := hv
      subst hn2n
      simp only [updateColumns, List.mem_map, List.mem_filter,
        Bool.and_eq_true, Bool.not_eq_true', bne_iff_ne, ne_eq] at hn2
      obtain ⟨tc, ⟨htc, hcc, hid⟩, hname⟩ := hn2
      subst hname
      exact ⟨⟨tc, htc, rfl⟩, hcc, hid⟩
    · rintro ⟨⟨tc, htc, hname⟩, hcc, hid⟩
      refine ⟨record.lookup n, ?_⟩
      simp only [buildUpsertStmt, List.mem_map, Prod.mk.injEq]
      refine ⟨n, ?_, rfl, rfl⟩
      simp only [updateColumns, List.mem_map, List.mem_filter,
        Bool.and_eq_true, Bool.not_eq_true', bne_iff_ne, ne_eq]
      exact ⟨tc, ⟨htc, by rw [hname]; exact hcc, by rw [hname]; exact hid⟩,
        hname⟩
  · intro v hv
    simp only [buildUpsertStmt, List.mem_map, Prod.mk.injEq] at hv
    obtain ⟨n2, _, hn2n, hv2⟩ := hv
    subst hn2n
    exact hv2.symm

/-- Witness for the amended C6: on a concrete table, Quantity is updated
with its excluded value while the conflict column is not updated. -/
theorem C6_update_set_witness :
    (∃ v, ("Quantity", v) ∈ (buildUpsertStmt
      ⟨"sales_final", [⟨"InvoiceNo", false⟩, ⟨"Quantity", false⟩]⟩
      [("InvoiceNo", .str "536365"), ("Quantity", .int 6)]
      ["InvoiceNo"]).updateSet) ∧
    ¬ (∃ v, ("InvoiceNo", v) ∈ (buildUpsertStmt
      ⟨"sales_final", [⟨"InvoiceNo", false⟩, ⟨"Quantity", false⟩]⟩
      [("InvoiceNo", .str "536365"), ("Quantity", .int 6)]
      ["InvoiceNo"]).updateSet) :=
  ⟨(C6_update_set _ _ _ _).1.mpr
      ⟨⟨⟨"Quantity", false⟩, by decide, rfl⟩, by decide, by decide⟩,
    fun hex => by
      have h := (C6_update_set
        ⟨"sales_final", [⟨"InvoiceNo", false⟩, ⟨"Quantity", false⟩]⟩
        [("InvoiceNo", .str "536365"), ("Quantity", .int 6)]
        ["InvoiceNo"] "InvoiceNo").1.mp hex
      simp at h⟩

theorem runRetry_one {A : Type} (p : DBExc → Bool) (w : ℕ → ℚ)
    (b : ℕ → Except DBExc A) (n : ℕ) :
    runRetry p w b 1 n = ⟨b n, n, []⟩ :=
  rfl

theorem connectWait_one : connectWait 1 = 2 := by
  norm_num [connectWait, waitExponential, ratMax, ratMin, pow2]

theorem connectWait_two : connectWait 2 = 4 := by
  norm_num [connectWait, waitExponential, ratMax, ratMin, pow2]

theorem connectWait_bounds (n : ℕ) :
    2 ≤ connectWait n ∧ connectWait n ≤ 10 := by
  have h0 : ratMax 0 2 = 2 := by norm_num [ratMax]
  unfold connectWait waitExponential
  rw [h0]
  have hz10 : ratMin (1 * pow2 n) 10 ≤ 10 := by
    unfold ratMin
    split
    · assumption
    · exact le_refl 10
  unfold ratMax
  split
  · exact ⟨by assumption, hz10⟩
  · exact ⟨le_refl 2, by norm_num⟩

theorem create_engine_with_retry_eq {A : Type} (b : ℕ → Except DBExc A) :
    create_engine_with_retry b =
      match b 1 with
      | .ok a => ⟨.ok a, 1, []⟩
      | .error e1 =>
          if isOperationalError e1 = true then
            match b 2 with
            | .ok a => ⟨.ok a, 2, [connectWait 1]⟩
            | .error e2 =>
                if isOperationalError e2 = true then
                  ⟨b 3, 3, [connectWait 1, connectWait 2]⟩
                else ⟨.error e2, 2, [connectWait 1]⟩
          else ⟨.error e1, 1, []⟩ := by
  show runRetry isOperationalError connectWait b 3 1 = _
  rw [show runRetry isOperationalError connectWait b 3 1 =
    match b 1 with
    | .ok a => ⟨.ok a, 1, []⟩
    | .error e =>
        if isOperationalError e then
          ⟨(runRetry isOperationalError connectWait b 2 2).result,
            (runRetry isOperationalError connectWait b 2 2).attempts,
            connectWait 1 ::
              (runRetry isOperationalError connectWait b 2 2).waits⟩
        else ⟨.error e, 1, []⟩ from rfl]
  rcases b 1 with e1 | a
  · by_cases h1 : isOperationalError e1 = true
    · simp only [h1, if_true]
      rw [show runRetry isOperationalError connectWait b 2 2 =
        match b 2 with
        | .ok a => ⟨.ok a, 2, []⟩
        | .error e =>
            if isOperationalError e then
              ⟨(runRetry isOperationalError connectWait b 1 3).result,
                (runRetry isOperationalError connectWait b 1 3).attempts,
                connectWait 2 ::
                  (runRetry isOperationalError connectWait b 1 3).waits⟩
            else ⟨.error e, 2, []⟩ from rfl]
      rcases b 2 with e2 | a
      · by_cases h2 : isOperationalError e2 = true
        · simp only [h2, if_true, runRetry_one]
        · simp only [if_neg h2]
      · rfl
    · simp only [if_neg h1]
  · rfl

theorem create_engine_retry_exhaust {A : Type} (b : ℕ → Except DBExc A)
    (e1 e2 e3 : DBExc) (hb1 : b 1 = .error e1)
    (hop1 : isOperationalError e1 = true) (hb2 : b 2 = .error e2)
    (hop2 : isOperationalError e2 = true) (hb3 : b 3 = .error e3) :
    create_engine_with_retry b = ⟨.error e3, 3, [2, 4]⟩ := by
  rw [create_engine_with_retry_eq, hb1]
  simp only [hop1, if_true]
  rw [hb2]
  simp only [hop2, if_true]
  rw [hb3, connectWait_one, connectWait_two]

theorem create_engine_retry_once {A : Type} (b : ℕ → Except DBExc A)
    (e1 : DBExc) (a : A) (hb1 : b 1 = .error e1)
    (hop1 : isOperationalError e1 = true) (hb2 : b 2 = .ok a) :
    create_engine_with_retry b = ⟨.ok a, 2, [2]⟩ := by
  rw [create_engine_with_retry_eq, hb1]
  simp only [hop1, if_true]
  rw [hb2, connectWait_one]

theorem create_engine_no_retry {A : Type} (b : ℕ → Except DBExc A)
    (e : DBExc) (hb1 : b 1 = .error e)
    (hop : isOperationalError e = false) :
    create_engine_with_retry b = ⟨.error e, 1, []⟩ := by
  rw [create_engine_with_retry_eq, hb1]
  simp [hop]

/-- Claim C4 counterexample: the claim says authentication errors are
never retried, but the retry predicate tests only the exception class,
and a failed password authentication reaches it from the PostgreSQL
driver as an OperationalError: connect retries it after waits of 2 and 4
seconds and makes all 3 attempts before re-raising it. -/
theorem C4_counterexample :
    psycopg2AuthFailure.cause = .authenticationFailure ∧
      isOperationalError psycopg2AuthFailure = true ∧
      create_engine_with_retry
          (fun _ => (.error psycopg2AuthFailure : Except DBExc Unit)) =
        ⟨.error psycopg2AuthFailure, 3, [2, 4]⟩ :=
  ⟨rfl, rfl,
    create_engine_retry_exhaust _ _ _ _ rfl rfl rfl rfl rfl⟩

/-- Claim C4 as amended: connect makes at most 3 attempts; the waits
between attempts are 2 seconds then 4 seconds, and the wait function is
bounded between the minimum 2 and the cap 10 for every attempt; an
exception is retried exactly when it is an instance of OperationalError,
whatever the cause of the failure — so an authentication failure raised by
the driver as OperationalError is retried like a transient one, while an
exception of any other class (such as a configuration ArgumentError) ends
the run at once with the error unchanged; and when all 3 attempts fail the
error of the final attempt is re-raised unchanged, not wrapped. -/
theorem C4_connect_retry :
    (∀ (A : Type) (b : ℕ → Except DBExc A),
      (create_engine_with_retry b).attempts ≤ 3) ∧
      connectWait 1 = 2 ∧ connectWait 2 = 4 ∧
      (∀ n : ℕ, 2 ≤ connectWait n ∧ connectWait n ≤ 10) ∧
      (∀ e : DBExc,
        isOperationalError e = true ↔ e.sqlaClass = .operationalError) ∧
      (∀ (A : Type) (b : ℕ → Except DBExc A) (e : DBExc),
        b 1 = .error e → isOperationalError e = false →
        create_engine_with_retry b = ⟨.error e, 1, []⟩) ∧
      (∀ (A : Type) (b : ℕ → Except DBExc A) (e1 : DBExc) (a : A),
        b 1 = .error e1 → isOperationalError e1 = true → b 2 = .ok a →
        create_engine_with_retry b = ⟨.ok a, 2, [2]⟩) ∧
      (∀ (A : Type) (b : ℕ → Except DBExc A) (e1 e2 e3 : DBExc),
        b 1 = .error e1 → isOperationalError e1 = true →
        b 2 = .error e2 → isOperationalError e2 = true →
        b 3 = .error e3 →
        create_engine_with_retry b = ⟨.error e3, 3, [2, 4]⟩) := by
  refine ⟨?_, connectWait_one, connectWait_two, connectWait_bounds, ?_,
    fun A b e hb1 hop => create_engine_no_retry b e hb1 hop,
    fun A b e1 a hb1 hop1 hb2 => create_engine_retry_once b e1 a hb1 hop1 hb2,
    fun A b e1 e2 e3 hb1 hop1 hb2 hop2 hb3 =>
      create_engine_retry_exhaust b e1 e2 e3 hb1 hop1 hb2 hop2 hb3⟩
  · intro A b
    rw [create_engine_with_retry_eq]
    rcases b 1 with e1 | a
    · by_cases h1 : isOperationalError e1 = true
      · simp only [h1, if_true]
        rcases b 2 with e2 | a
        · by_cases h2 : isOperationalError e2 = true
          · simp [h2]
          · simp [h2]
        · simp
      · simp [h1]
    · simp
  · intro e
    simp [isOperationalError]

/-- Witness for the amended C4: a transient operational first failure is
retried after a 2 second wait and the second attempt succeeds, while a
configuration ArgumentError is not retried and is re-raised at once. -/
theorem C4_connect_retry_witness :
    create_engine_with_retry
        (fun n => if n < 2 then
          (.error ⟨.operationalError, .connectionFailure,
            "could not connect to server"⟩ : Except DBExc Unit)
          else .ok ()) =
      ⟨.ok (), 2, [2]⟩ ∧
      create_engine_with_retry
          (fun _ => (.error ⟨.argumentError, .configurationFailure,
            "invalid connection URL"⟩ : Except DBExc Unit)) =
        ⟨.error ⟨.argumentError, .configurationFailure,
          "invalid connection URL"⟩, 1, []⟩ :=
  ⟨C4_connect_retry.2.2.2.2.2.2.1 Unit _ _ () rfl rfl rfl,
    C4_connect_retry.2.2.2.2.2.1 Unit _ _ rfl rfl⟩

/-- Claim C7: a failure raised inside the normalization bodies is caught
into the absent result None — the except clauses of handle_missing_values
and correct_datatypes — and never escapes, while a failure in the
persistence layer (upsert run, query) is re-raised unchanged and is never
turned into a null result. -/
theorem C7_error_propagation :
    (∀ (body : Except PyError Dataset) (e : PyError),
      body = .error e → tryCatchToNone body = none) ∧
      (∀ (d : Dataset) (e : PyError), imputeDataset d = .error e →
        handle_missing_values (some d) = none) ∧
      (∀ (pS : String → Option ℚ) (pN : ℚ → Option ℚ) (d : Dataset)
        (e : PyError),
        narrowNumericColumns
          (convertDateColumns (fun c => .ok (pdToDatetimeCoerce pS pN c)) d) =
          .error e →
        correct_datatypes pS pN (some d) = none) ∧
      (∀ (exec : DBEvent → Except DBExc Unit) (t : DBTable)
        (records : List Record) (cc : List String) (e : DBExc),
        runEvents exec (upsertTrace t records cc) = .error e →
        upsert_dataframe_run exec t records cc = .error e) ∧
      (∀ (readSql : String → Except DBExc Dataset) (q : String) (e : DBExc),
        readSql q = .error e → execute_query readSql q = .error e) := by
  refine ⟨?_, ?_, ?_, ?_, ?_⟩
  · intro body e h
    rw [h]
    rfl
  · intro d e h
    simp only [handle_missing_values, h]
    rfl
  · intro pS pN d e h
    simp only [correct_datatypes, h]
    rfl
  · intro exec t records cc e h
    simp only [upsert_dataframe_run, h]
  · intro readSql q e h
    simp only [execute_query, h]

/-- Witness for C7: a caught normalization failure yields None; a failing
upsert run and a failing query re-raise the same error. -/
theorem C7_error_propagation_witness :
    tryCatchToNone (Except.error ⟨"boom"⟩ : Except PyError Dataset) = none ∧
      upsert_dataframe_run
        (fun _ => .error ⟨.otherClass, .otherCause, "db gone"⟩) ⟨"t", []⟩ []
        ["k"] = .error ⟨.otherClass, .otherCause, "db gone"⟩ ∧
      execute_query
        (fun _ => .error ⟨.operationalError, .connectionFailure, "down"⟩)
        "SELECT 1" =
        .error ⟨.operationalError, .connectionFailure, "down"⟩ :=
  ⟨C7_error_propagation.1 _ ⟨"boom"⟩ rfl,
    C7_error_propagation.2.2.2.1 _ _ _ _ _ rfl,
    C7_error_propagation.2.2.2.2 _ _ _ rfl⟩

end Pipeline
